import Mathlib

/-!
Verification development for the contessa-boilerplates repository.

The repository has two independent pieces:
* `useStoredState` (src/src/index.ts), a React hook that mirrors a JSON-serialized
  slot of `localStorage`/`sessionStorage` into component state, persisting the
  mirror back on change and broadcasting a same-context custom event
  `"<key>-changed"` so that other mounted instances re-read the slot;
* a post-install script (src/src/index.ts installer / src/unnamed/part_001)
  that recursively copies the bundled boilerplate directory into the consumer
  project's `src/contessa` folder.

The embedding below models JS values flowing through the hook as a JSON value
type (`JVal`), JS `undefined` as `Option.none` at the `JSVal` level, the two
Web Storage backends as string-keyed maps that can be configured to throw on
`getItem`/`setItem`/`removeItem` (modelling quota/security errors), and the
hook's three internals `getStoredValue`, `removeStoredValue` and the
persistence effect (lines 137-150 of index.ts) as pure state transformers.
Event delivery of `dispatchEvent` is synchronous in the browser; the scenario
functions thread it explicitly.
-/

mutual
/-- JSON values, the payloads `useStoredState` serializes. Numbers are modelled
as integers (the claims do not depend on float behaviour); object fields keep
their insertion order, as `JSON.stringify` does. Arrays and objects carry
their children through the mutual list types `JItems`/`JFields`. -/
inductive JVal where
  | null
  | bool (b : Bool)
  | num (n : Int)
  | str (s : String)
  | arr (elems : JItems)
  | obj (fields : JFields)

/-- The elements of a JSON array. -/
inductive JItems where
  | nil
  | cons (head : JVal) (tail : JItems)

/-- The named fields of a JSON object, in insertion order. -/
inductive JFields where
  | nil
  | cons (name : String) (head : JVal) (tail : JFields)
end

/-- String escaping used inside JSON string literals (quote and backslash;
control characters do not occur in the scenarios considered). -/
def escapeChar (c : Char) : String :=
  if c = '"' then "\\\"" else if c = '\\' then "\\\\" else String.singleton c

/-- Escape a whole string for inclusion in a JSON literal. -/
def escapeStr (s : String) : String :=
  String.join (s.toList.map escapeChar)

mutual
/-- Modelled from the host: `JSON.stringify` on a (defined) JS value. -/
def stringify : JVal → String
  | .null => "null"
  | .bool b => if b then "true" else "false"
  | .num n => toString n
  | .str s => "\"" ++ escapeStr s ++ "\""
  | .arr xs => "[" ++ stringifyItems xs ++ "]"
  | .obj fs => "\x7b" ++ stringifyFields fs ++ "\x7d"

/-- Comma-separated serialization of array elements. -/
def stringifyItems : JItems → String
  | .nil => ""
  | .cons x .nil => stringify x
  | .cons x xs => stringify x ++ "," ++ stringifyItems xs

/-- Comma-separated serialization of object fields. -/
def stringifyFields : JFields → String
  | .nil => ""
  | .cons n v .nil => "\"" ++ escapeStr n ++ "\":" ++ stringify v
  | .cons n v fs => "\"" ++ escapeStr n ++ "\":" ++ stringify v ++ "," ++ stringifyFields fs
end

/-- A JS value as seen by the hook: `none` is JS `undefined`, `some v` a defined
JSON value (`some JVal.null` is JS `null`). -/
abbrev JSVal := Option JVal

/-- Modelled from the host: `JSON.stringify` at the JS level; on `undefined` it
returns `undefined` (`none`), which is how the hook's `hasValueChanged`
comparison sees it. -/
def stringifyJS : JSVal → Option String
  | none => none
  | some v => some (stringify v)

/-- The JS test `storedValue === null || storedValue === undefined` from line
142 of index.ts. -/
def isNullish : JSVal → Bool
  | none => true
  | some JVal.null => true
  | some _ => false

/-- Text held by a storage slot. `ser v` is the output of `JSON.stringify v`;
`corrupt s` models backend text that is not valid JSON (written by other code).
-/
inductive StoredString where
  | ser (v : JVal)
  | corrupt (s : String)

/-- JS truthiness of the slot text, used by `item ? JSON.parse(item) : value`:
`null` and the empty string are falsy. `JSON.stringify` output is never the
empty string, so serialized slots are always truthy. -/
def StoredString.truthy : StoredString → Bool
  | .ser _ => true
  | .corrupt s => s != ""

/-- Modelled from the host: `JSON.parse`. On the output of `JSON.stringify v`
it returns `v`; on non-JSON text it throws. -/
def jsonParse : StoredString → Except Unit JVal
  | .ser v => Except.ok v
  | .corrupt _ => Except.error ()

/-- A Web Storage backend (`localStorage` or `sessionStorage`): a string-keyed
map of slots plus fault flags making the corresponding operation throw
(security/quota errors, out of the hook's control). -/
structure Backend where
  slots : String → Option StoredString
  failGet : Bool
  failSet : Bool
  failRemove : Bool

/-- Backend `getItem`: returns the slot text or `null`; throws when the backend
is faulty. -/
def Backend.getItem (b : Backend) (k : String) : Except Unit (Option StoredString) :=
  if b.failGet then Except.error () else Except.ok (b.slots k)

/-- Backend `setItem`. -/
def Backend.setItem (b : Backend) (k : String) (s : StoredString) : Except Unit Backend :=
  if b.failSet then Except.error ()
  else Except.ok { b with slots := fun q => if q = k then some s else b.slots q }

/-- Backend `removeItem`. -/
def Backend.removeItem (b : Backend) (k : String) : Except Unit Backend :=
  if b.failRemove then Except.error ()
  else Except.ok { b with slots := fun q => if q = k then none else b.slots q }

/-- `getStoredValue` from index.ts lines 105-113: read and parse the slot,
falling back to the default `value` when the slot is absent/falsy or when
`getItem`/`JSON.parse` throws (the try/catch swallows the error). -/
def getStoredValue (storage : Backend) (key : String) (value : JSVal) : JSVal :=
  match storage.getItem key with
  | Except.error _ => value
  | Except.ok none => value
  | Except.ok (some item) =>
      if item.truthy then
        match jsonParse item with
        | Except.ok v => some v
        | Except.error _ => value
      else value

/-- `removeStoredValue` from index.ts lines 117-120: calls the backend's
`removeItem` with NO try/catch, so a backend error propagates to the caller.
The subsequent `dispatchEvent` of `"<key>-changed"` is threaded by the
scenario functions below. -/
def removeStoredValue (storage : Backend) (key : String) : Except Unit Backend :=
  storage.removeItem key

/-- Outcome of one run of the persistence effect (index.ts lines 137-150). -/
structure EffectOut where
  storage : Backend
  previousValueRef : JSVal
  hasValueChanged : Bool
  persisted : Bool
  dispatched : Bool
  errorLogged : Bool

/-- The persistence effect, index.ts lines 137-150. It compares the serialized
mirror against the serialized `previousValueRef` (`hasValueChanged`); when they
differ it removes the slot for nullish mirrors and otherwise stores the
serialized mirror; the `dispatchEvent` of `"<key>-changed"` and the
`previousValueRef.current = storedValue` assignment sit inside the same `try`,
AFTER the backend call, so a throwing `setItem`/`removeItem` jumps to the
`catch` (which only logs) and skips both. In the non-nullish branch the mirror
is `some v` with `v` not `JVal.null`, so `Option.getD` returns that `v`. -/
def persistEffect (storage : Backend) (key : String) (storedValue previousValueRef : JSVal) :
    EffectOut :=
  if stringifyJS storedValue != stringifyJS previousValueRef then
    match (if isNullish storedValue then storage.removeItem key
           else storage.setItem key (StoredString.ser (storedValue.getD JVal.null))) with
    | Except.error _ => ⟨storage, previousValueRef, true, false, false, true⟩
    | Except.ok b => ⟨b, storedValue, true, true, true, false⟩
  else ⟨storage, previousValueRef, false, false, false, false⟩

/-- One mounted `useStoredState` instance: configuration `key`/`value` (the
default) and the two pieces of per-instance state, the `useState` mirror
`storedValue` and the `useRef` cell `previousValueRef` (initialized to JS
`null`, line 103). -/
structure Inst where
  key : String
  value : JSVal
  storedValue : JSVal
  previousValueRef : JSVal

/-- A freshly mounted instance: `useState<T>(getStoredValue)` seeds the mirror
from the slot (or the default), and `useRef<T | null>(null)` seeds the
previously-committed cell with JS `null`. -/
def initialInst (storage : Backend) (key : String) (value : JSVal) : Inst :=
  { key := key, value := value
    storedValue := getStoredValue storage key value
    previousValueRef := some JVal.null }

/-- A single-instance same-context scenario state: the shared backend, the
instance, and counters of successful backend persistence calls
(`setItem`/`removeItem` runs that did not throw) and of dispatches of the
`"<key>-changed"` custom event. -/
structure SState where
  storage : Backend
  inst : Inst
  persistCount : Nat
  notifyCount : Nat

/-- `setStoredValue v` (the setter returned by the hook): the mirror becomes
`v`; effects run later. -/
def writeStep (v : JSVal) (s : SState) : SState :=
  { s with inst := { s.inst with storedValue := v } }

/-- Delivery of the `"<key>-changed"` event to the instance's `handleCustom`
listener (index.ts line 127): `setStoredValue(getStoredValue())`. -/
def deliverStep (s : SState) : SState :=
  { s with inst := { s.inst with storedValue := getStoredValue s.storage s.inst.key s.inst.value } }

/-- One run of the persistence effect over the scenario state; the returned
flag says whether the run dispatched the custom event. -/
def applyEffect (s : SState) : SState × Bool :=
  let r := persistEffect s.storage s.inst.key s.inst.storedValue s.inst.previousValueRef
  ({ storage := r.storage
     inst := { s.inst with previousValueRef := r.previousValueRef }
     persistCount := s.persistCount + (if r.persisted then 1 else 0)
     notifyCount := s.notifyCount + (if r.dispatched then 1 else 0) }, r.dispatched)

/-- One call of the setter followed by the induced same-context
synchronization: the persistence effect runs; if it dispatched, the instance's
own `handleCustom` re-reads the slot and the resulting state update re-runs
the effect, up to three effect runs (the echo stabilizes by then in every
scenario below, because an effect run that changes nothing does not dispatch).
-/
def writeOnce (v : JSVal) (s : SState) : SState :=
  let p1 := applyEffect (writeStep v s)
  if p1.2 then
    let p2 := applyEffect (deliverStep p1.1)
    if p2.2 then (applyEffect (deliverStep p2.1)).1
    else p2.1
  else p1.1

/-- `remove()` followed by the induced same-context synchronization:
`removeStoredValue` (whose backend error, if any, propagates), then the
dispatch of `"<key>-changed"` delivered to `handleCustom`, then the
persistence effect triggered by that state update, with its own echo. -/
def removeAndSettle (s : SState) : Except Unit SState :=
  match removeStoredValue s.storage s.inst.key with
  | Except.error e => Except.error e
  | Except.ok b =>
      let s1 := deliverStep { s with storage := b, notifyCount := s.notifyCount + 1 }
      let p2 := applyEffect s1
      if p2.2 then Except.ok (applyEffect (deliverStep p2.1)).1
      else Except.ok p2.1

/-- Two instances mounted in the same context over the same backend. -/
structure CtxState where
  storage : Backend
  a : Inst
  b : Inst

/-- Instance `a` calls the setter with `v`; its persistence effect runs; if the
effect dispatched `"<key>-changed>"`, every listener registered for that event
name re-reads the slot — instance `a`'s own `handleCustom`, and instance `b`'s
when `b` watches the same key. -/
def writeAndSync (v : JSVal) (c : CtxState) : CtxState :=
  let a1 := { c.a with storedValue := v }
  let r := persistEffect c.storage a1.key v a1.previousValueRef
  let a2 := { a1 with previousValueRef := r.previousValueRef }
  if r.dispatched then
    { storage := r.storage
      a := { a2 with storedValue := getStoredValue r.storage a2.key a2.value }
      b := if c.b.key = a2.key
           then { c.b with storedValue := getStoredValue r.storage c.b.key c.b.value }
           else c.b }
  else { storage := r.storage, a := a2, b := c.b }

mutual
/-- A file-system tree: a file with its byte content, or a directory. Real
directories have pairwise-distinct entry names (`FsTree.wfb` below). -/
inductive FsTree where
  | file (content : List Nat)
  | dir (entries : Entries)

/-- The named entries of a directory, in `readdirSync` order. -/
inductive Entries where
  | nil
  | cons (name : String) (tree : FsTree) (tail : Entries)
end

/-- Lookup of a named entry in a directory listing. -/
def lookupEntry : Entries → String → Option FsTree
  | .nil, _ => none
  | .cons m t rest, n => if m = n then some t else lookupEntry rest n

/-- Create or overwrite a named entry in a directory listing. -/
def insertEntry : Entries → String → FsTree → Entries
  | .nil, n, t => .cons n t .nil
  | .cons m u rest, n, t =>
      if m = n then .cons n t rest else .cons m u (insertEntry rest n t)

/-- The names of a directory listing, in order. -/
def entryNames : Entries → List String
  | .nil => []
  | .cons n _ rest => n :: entryNames rest

/-- Pairwise distinctness of a list of names. -/
def distinctNames : List String → Bool
  | [] => true
  | n :: rest => !rest.contains n && distinctNames rest

mutual
/-- Well-formedness of a tree: every directory has pairwise-distinct entry
names, recursively (true of any tree read off a real file system). -/
def FsTree.wfb : FsTree → Bool
  | .file _ => true
  | .dir es => distinctNames (entryNames es) && Entries.wfb es

/-- Well-formedness of every tree in a directory listing. -/
def Entries.wfb : Entries → Bool
  | .nil => true
  | .cons _ t rest => t.wfb && Entries.wfb rest
end

/-- Resolve a relative path (list of names) inside a tree. -/
def pathLookup : FsTree → List String → Option FsTree
  | t, [] => some t
  | .file _, _ :: _ => none
  | .dir es, n :: p =>
      match lookupEntry es n with
      | none => none
      | some t => pathLookup t p

mutual
/-- `copyDirectory(source, target)` from src/src/index.ts lines 9-26, on the
entry listing of the source directory and the (possibly absent) file-system
object at the target path. `if (!existsSync(target)) mkdirSync(target,
{recursive: true})` creates an empty directory when the target is absent and
leaves whatever exists otherwise; when the existing target is a regular file,
the first copy into it fails (and an empty source loop body never touches it).
-/
def copyDirectory (src : Entries) (tgt : Option FsTree) : Except Unit FsTree :=
  match tgt with
  | some (FsTree.file c) =>
      match src with
      | .nil => Except.ok (FsTree.file c)
      | .cons _ _ _ => Except.error ()
  | some (FsTree.dir es) => (copyEntries src es).map FsTree.dir
  | none => (copyEntries src .nil).map FsTree.dir

/-- The `for (const file of files)` loop of `copyDirectory`: each source entry
is copied into the accumulating target listing — directories recursively via
`copyDirectory`, files via `copyFileSync`, which overwrites an existing file
but fails when the destination path is an existing directory. -/
def copyEntries (src tgt : Entries) : Except Unit Entries :=
  match src with
  | .nil => Except.ok tgt
  | .cons name (FsTree.file c) rest =>
      match lookupEntry tgt name with
      | some (FsTree.dir _) => Except.error ()
      | _ => copyEntries rest (insertEntry tgt name (FsTree.file c))
  | .cons name (FsTree.dir sub) rest =>
      match copyDirectory sub (lookupEntry tgt name) with
      | Except.error e => Except.error e
      | Except.ok t => copyEntries rest (insertEntry tgt name t)
end

theorem isNullish_some {j : JVal} (hj : j ≠ JVal.null) : isNullish (some j) = false := by
  cases j <;> simp_all [isNullish]

theorem getStoredValue_failGet {b : Backend} {k : String} {d : JSVal}
    (hg : b.failGet = true) : getStoredValue b k d = d := by
  simp [getStoredValue, Backend.getItem, hg]

theorem getStoredValue_absent {b : Backend} {k : String} {d : JSVal}
    (hg : b.failGet = false) (hs : b.slots k = none) : getStoredValue b k d = d := by
  simp [getStoredValue, Backend.getItem, hg, hs]

theorem getStoredValue_ser {b : Backend} {k : String} {j : JVal} {d : JSVal}
    (hg : b.failGet = false) (hs : b.slots k = some (StoredString.ser j)) :
    getStoredValue b k d = some j := by
  simp [getStoredValue, Backend.getItem, hg, hs, StoredString.truthy, jsonParse]

theorem getStoredValue_corrupt {b : Backend} {k : String} {s : String} {d : JSVal}
    (hs : b.slots k = some (StoredString.corrupt s)) : getStoredValue b k d = d := by
  by_cases hg : b.failGet = true
  · simp [getStoredValue, Backend.getItem, hg]
  · simp only [Bool.not_eq_true] at hg
    by_cases he : s = ""
    · simp [getStoredValue, Backend.getItem, hg, hs, StoredString.truthy, he]
    · simp [getStoredValue, Backend.getItem, hg, hs, StoredString.truthy, he, jsonParse]

theorem persistEffect_skip {storage : Backend} {key : String} {sv prev : JSVal}
    (h : stringifyJS sv = stringifyJS prev) :
    persistEffect storage key sv prev = ⟨storage, prev, false, false, false, false⟩ := by
  simp [persistEffect, h]

theorem persistEffect_set {storage : Backend} {key : String} {j : JVal} {prev : JSVal}
    (hch : stringifyJS (some j) ≠ stringifyJS prev) (hj : j ≠ JVal.null)
    (hs : storage.failSet = false) :
    persistEffect storage key (some j) prev =
      ⟨{ storage with
           slots := fun q => if q = key then some (StoredString.ser j) else storage.slots q },
        some j, true, true, true, false⟩ := by
  have hb : (stringifyJS (some j) != stringifyJS prev) = true := by
    simpa [bne_iff_ne] using hch
  simp [persistEffect, hb, isNullish_some hj, Backend.setItem, hs]

theorem persistEffect_remove {storage : Backend} {key : String} {sv prev : JSVal}
    (hch : stringifyJS sv ≠ stringifyJS prev) (hn : isNullish sv = true)
    (hr : storage.failRemove = false) :
    persistEffect storage key sv prev =
      ⟨{ storage with slots := fun q => if q = key then none else storage.slots q },
        sv, true, true, true, false⟩ := by
  have hb : (stringifyJS sv != stringifyJS prev) = true := by
    simpa [bne_iff_ne] using hch
  simp [persistEffect, hb, hn, Backend.removeItem, hr]

theorem persistEffect_hasValueChanged (b : Backend) (k : String) (sv prev : JSVal) :
    (persistEffect b k sv prev).hasValueChanged = (stringifyJS sv != stringifyJS prev) := by
  by_cases hc : (stringifyJS sv != stringifyJS prev) = true
  · rcases hw : (if isNullish sv then b.removeItem k
        else b.setItem k (StoredString.ser (sv.getD JVal.null))) with e | b'
    · simp [persistEffect, hc, hw]
    · simp [persistEffect, hc, hw]
  · simp only [Bool.not_eq_true] at hc
    simp [persistEffect, hc]

theorem persistEffect_error_frame (b : Backend) (k : String) (sv prev : JSVal)
    (h : (persistEffect b k sv prev).errorLogged = true) :
    (persistEffect b k sv prev).storage = b ∧
    (persistEffect b k sv prev).dispatched = false ∧
    (persistEffect b k sv prev).previousValueRef = prev := by
  by_cases hc : (stringifyJS sv != stringifyJS prev) = true
  · rcases hw : (if isNullish sv then b.removeItem k
        else b.setItem k (StoredString.ser (sv.getD JVal.null))) with e | b'
    · simp [persistEffect, hc, hw]
    · simp [persistEffect, hc, hw] at h
  · simp only [Bool.not_eq_true] at hc
    simp [persistEffect, hc]

/-- A healthy backend whose slot "k" holds the serialization of the number 1. -/
def okBackend : Backend :=
  { slots := fun q => if q = "k" then some (StoredString.ser (JVal.num 1)) else none
    failGet := false, failSet := false, failRemove := false }

/-- A healthy backend with no slots. -/
def emptyBackend : Backend :=
  { slots := fun _ => none, failGet := false, failSet := false, failRemove := false }

/-- A backend whose every operation throws (storage disabled / quota). -/
def failingBackend : Backend :=
  { slots := fun _ => none, failGet := true, failSet := true, failRemove := true }

/-- A backend where only `setItem` throws (quota exceeded). -/
def setFailBackend : Backend :=
  { slots := fun _ => none, failGet := false, failSet := true, failRemove := false }

/-- C1: accessor round-trip. `read()` returns the `storedValue` mirror, and the
setter `write(v)` is `setStoredValue`, which sets the mirror to `v`; so reading
immediately after `write(v)` in the same context yields `v` itself, whose JSON
serialization equals that of `v`, for every JSON-serializable value `v`
(including `null` and `undefined`; the deferred persistence effect has not run
yet at that point). -/
theorem c1_write_read_roundtrip (s : SState) (v : JSVal) :
    (writeStep v s).inst.storedValue = v ∧
    stringifyJS (writeStep v s).inst.storedValue = stringifyJS v :=
  ⟨rfl, rfl⟩

/-- C4 (amended): on a mirror update whose serialized form differs from the
previously committed one, the custom signal is emitted and the new serialized
form recorded as previously committed exactly when the backend write step did
NOT throw; when it throws, the error is only logged and BOTH the emission and
the recording are skipped (`dispatchEvent` and the `previousValueRef`
assignment sit inside the `try`, after the backend call). -/
theorem c4_commit_signal_iff_write_succeeds (b : Backend) (k : String) (sv prev : JSVal)
    (hch : stringifyJS sv ≠ stringifyJS prev) :
    ((persistEffect b k sv prev).errorLogged = false →
      (persistEffect b k sv prev).dispatched = true ∧
      (persistEffect b k sv prev).previousValueRef = sv) ∧
    ((persistEffect b k sv prev).errorLogged = true →
      (persistEffect b k sv prev).dispatched = false ∧
      (persistEffect b k sv prev).previousValueRef = prev) := by
  have hb : (stringifyJS sv != stringifyJS prev) = true := by
    simpa [bne_iff_ne] using hch
  rcases hw : (if isNullish sv then b.removeItem k
      else b.setItem k (StoredString.ser (sv.getD JVal.null))) with e | b'
  · simp [persistEffect, hb, hw]
  · simp [persistEffect, hb, hw]

theorem c4_commit_signal_iff_write_succeeds_witness :
    ((persistEffect emptyBackend "k" (some (JVal.num 5)) (some JVal.null)).errorLogged = false →
      (persistEffect emptyBackend "k" (some (JVal.num 5)) (some JVal.null)).dispatched = true ∧
      (persistEffect emptyBackend "k" (some (JVal.num 5)) (some JVal.null)).previousValueRef =
        some (JVal.num 5)) ∧
    ((persistEffect emptyBackend "k" (some (JVal.num 5)) (some JVal.null)).errorLogged = true →
      (persistEffect emptyBackend "k" (some (JVal.num 5)) (some JVal.null)).dispatched = false ∧
      (persistEffect emptyBackend "k" (some (JVal.num 5)) (some JVal.null)).previousValueRef =
        some JVal.null) :=
  c4_commit_signal_iff_write_succeeds emptyBackend "k" (some (JVal.num 5)) (some JVal.null)
    (by decide)

/-- C4 counterexample: against the claim's "it does so even when the backend
write step raised an error", a mirror update to 5 over a throwing `setItem`
emits no signal and leaves the previously-committed cell at its old value
(the error is logged and everything after the backend call is skipped). -/
theorem c4_counterexample :
    (persistEffect setFailBackend "k" (some (JVal.num 5)) (some JVal.null)).errorLogged = true ∧
    (persistEffect setFailBackend "k" (some (JVal.num 5)) (some JVal.null)).dispatched = false ∧
    (persistEffect setFailBackend "k" (some (JVal.num 5)) (some JVal.null)).previousValueRef =
      some JVal.null :=
  ⟨rfl, rfl, rfl⟩

/-- C5 (amended): read-path errors (throwing `getItem`, unparseable slot text)
are swallowed and fall back to the default; a throwing persistence step only
logs, leaves the backend untouched and emits no signal; BUT `remove()`
(`removeStoredValue`) calls the backend's `removeItem` without any guard, so a
backend error there propagates to the caller — it is the one accessor
operation that can throw. -/
theorem c5_error_containment (b : Backend) (k : String) (d : JSVal) (s : String)
    (sv prev : JSVal) :
    (b.failGet = true → getStoredValue b k d = d) ∧
    (b.slots k = some (StoredString.corrupt s) → getStoredValue b k d = d) ∧
    ((persistEffect b k sv prev).errorLogged = true →
      (persistEffect b k sv prev).storage = b ∧
      (persistEffect b k sv prev).dispatched = false) ∧
    (removeStoredValue b k = Except.error () ↔ b.failRemove = true) := by
  refine ⟨fun hg => getStoredValue_failGet hg, fun hs => getStoredValue_corrupt hs,
    fun he => ⟨(persistEffect_error_frame b k sv prev he).1,
               (persistEffect_error_frame b k sv prev he).2.1⟩, ?_⟩
  by_cases hr : b.failRemove = true
  · simp [removeStoredValue, Backend.removeItem, hr]
  · simp only [Bool.not_eq_true] at hr
    simp [removeStoredValue, Backend.removeItem, hr]

theorem c5_error_containment_witness :
    getStoredValue failingBackend "k" (some (JVal.num 0)) = some (JVal.num 0) ∧
    removeStoredValue failingBackend "k" = Except.error () :=
  ⟨(c5_error_containment failingBackend "k" (some (JVal.num 0)) "" none none).1 rfl,
   (c5_error_containment failingBackend "k" (some (JVal.num 0)) "" none none).2.2.2.mpr rfl⟩

/-- C5 counterexample: against the claim's "no accessor operation (initial
read, write persistence, or remove) propagates a ... storage-backend error to
the caller", `remove()` over a throwing backend propagates the error — the
source wraps the read and write paths in try/catch but not
`removeStoredValue`. -/
theorem c5_counterexample :
    removeStoredValue failingBackend "k" = Except.error () :=
  rfl

/-- C6 (amended): the previously-committed cell starts at JS `null` (not
unset): `useRef<T | null>(null)`. Hence the first run of the persistence
effect after mount is suppressed precisely when the initial mirror serializes
to "null" (i.e. the initial value is `null`); for every initial mirror value
whose serialization differs from "null" the first run does proceed. -/
theorem c6_first_run_suppression (storage : Backend) (key : String) (value : JSVal) :
    (stringifyJS (initialInst storage key value).storedValue ≠ some "null" →
      (persistEffect storage key (initialInst storage key value).storedValue
        (initialInst storage key value).previousValueRef).hasValueChanged = true) ∧
    (stringifyJS (initialInst storage key value).storedValue = some "null" →
      persistEffect storage key (initialInst storage key value).storedValue
        (initialInst storage key value).previousValueRef =
        ⟨storage, (initialInst storage key value).previousValueRef,
          false, false, false, false⟩) := by
  have hprev : (initialInst storage key value).previousValueRef = some JVal.null := rfl
  have hstr : stringifyJS (some JVal.null) = some "null" := rfl
  constructor
  · intro h
    rw [persistEffect_hasValueChanged, hprev, hstr]
    simpa [bne_iff_ne] using h
  · intro h
    exact persistEffect_skip (by rw [h, hprev, hstr])

theorem c6_first_run_suppression_witness :
    (persistEffect emptyBackend "k"
      (initialInst emptyBackend "k" (some (JVal.num 0))).storedValue
      (initialInst emptyBackend "k" (some (JVal.num 0))).previousValueRef).hasValueChanged =
      true :=
  (c6_first_run_suppression emptyBackend "k" (some (JVal.num 0))).1 (by decide)

/-- C6 counterexample: against the claim's "the first run ... is never
suppressed", for a freshly mounted accessor whose initial mirror is `null`
(default `null`, no slot) the first effect run IS suppressed: the serialized
mirror "null" equals the serialization of the ref's initial JS `null`, so
nothing is persisted and no signal is emitted. -/
theorem c6_counterexample :
    (persistEffect emptyBackend "k"
      (initialInst emptyBackend "k" (some JVal.null)).storedValue
      (initialInst emptyBackend "k" (some JVal.null)).previousValueRef).hasValueChanged =
      false ∧
    (persistEffect emptyBackend "k"
      (initialInst emptyBackend "k" (some JVal.null)).storedValue
      (initialInst emptyBackend "k" (some JVal.null)).previousValueRef).dispatched = false ∧
    (persistEffect emptyBackend "k"
      (initialInst emptyBackend "k" (some JVal.null)).storedValue
      (initialInst emptyBackend "k" (some JVal.null)).previousValueRef).persisted = false :=
  ⟨rfl, rfl, rfl⟩

/-- C7: writing `undefined` or `null` through the setter makes the persistence
step call `removeItem` on the backend slot — afterwards the slot is absent, so
no serialized value was stored — while the persistence step leaves the
in-memory mirror untouched: it still holds the nullish value that was set.
(The signal the step then emits is what later resets the mirror; that chain is
the subject of the implicit re-creation claim.) -/
theorem c7_nullish_write_removes_slot (s : SState) (v : JSVal)
    (hn : isNullish v = true)
    (hch : stringifyJS v ≠ stringifyJS s.inst.previousValueRef)
    (hr : s.storage.failRemove = false) :
    (applyEffect (writeStep v s)).1.inst.storedValue = v ∧
    (applyEffect (writeStep v s)).1.storage.slots s.inst.key = none := by
  simp [applyEffect, writeStep, persistEffect_remove hch hn hr]

theorem c7_nullish_write_removes_slot_witness :
    ((applyEffect (writeStep none
        ⟨okBackend, ⟨"k", some (JVal.num 0), some (JVal.num 1), some (JVal.num 1)⟩,
          0, 0⟩)).1.inst.storedValue = none ∧
     (applyEffect (writeStep none
        ⟨okBackend, ⟨"k", some (JVal.num 0), some (JVal.num 1), some (JVal.num 1)⟩,
          0, 0⟩)).1.storage.slots "k" = none) :=
  c7_nullish_write_removes_slot
    ⟨okBackend, ⟨"k", some (JVal.num 0), some (JVal.num 1), some (JVal.num 1)⟩, 0, 0⟩
    none rfl (by decide) rfl

/-- C8: after a successful `remove()`, the backend slot for the key is absent,
so a fresh accessor instantiation for the same key and backend seeds its
mirror from `getStoredValue`, which returns the supplied default — never a
stale previously-written value. -/
theorem c8_remove_then_fresh_default (b : Backend) (k : String) (d : JSVal)
    (hr : b.failRemove = false) :
    ∃ b' : Backend, removeStoredValue b k = Except.ok b' ∧
      b'.slots k = none ∧
      (initialInst b' k d).storedValue = d := by
  refine ⟨{ b with slots := fun q => if q = k then none else b.slots q }, ?_, ?_, ?_⟩
  · simp [removeStoredValue, Backend.removeItem, hr]
  · simp
  · by_cases hg : b.failGet = true
    · exact getStoredValue_failGet hg
    · simp only [Bool.not_eq_true] at hg
      exact getStoredValue_absent hg (by simp)

theorem c8_remove_then_fresh_default_witness :
    ∃ b' : Backend, removeStoredValue okBackend "k" = Except.ok b' ∧
      b'.slots "k" = none ∧
      (initialInst b' "k" (some (JVal.num 0))).storedValue = some (JVal.num 0) :=
  c8_remove_then_fresh_default okBackend "k" (some (JVal.num 0)) rfl

/-- C2 (amended): two instances sharing the key and backend in one context:
when instance `a` writes a stored value `v = some j` (not `null`/`undefined`),
the write actually changes the committed serialization, and the backend is
healthy, the persistence effect stores `v` and dispatches the same-context
custom signal, whose delivery makes instance `b` re-read the slot: `b`'s
mirror becomes serialization-equal to `v` without any explicit read by the
caller. (For `null`/`undefined` writes the effect removes the slot instead,
and delivery resets `b` to its default — see the counterexample.) -/
theorem c2_cross_instance_sync (c : CtxState) (j : JVal)
    (hk : c.b.key = c.a.key) (hj : j ≠ JVal.null)
    (hg : c.storage.failGet = false) (hs : c.storage.failSet = false)
    (hch : stringifyJS (some j) ≠ stringifyJS c.a.previousValueRef) :
    (writeAndSync (some j) c).b.storedValue = some j ∧
    stringifyJS (writeAndSync (some j) c).b.storedValue = stringifyJS (some j) := by
  have hpe := @persistEffect_set c.storage c.a.key j c.a.previousValueRef hch hj hs
  have hb : (writeAndSync (some j) c).b.storedValue = some j := by
    simp only [writeAndSync, hpe, hk, if_true, if_pos rfl]
    exact getStoredValue_ser (by simpa using hg) (by simp [hk])
  exact ⟨hb, by rw [hb]⟩

theorem c2_cross_instance_sync_witness :
    (writeAndSync (some (JVal.num 5))
        ⟨okBackend,
         ⟨"k", some (JVal.num 0), some (JVal.num 1), some (JVal.num 1)⟩,
         ⟨"k", some (JVal.num 0), some (JVal.num 1), some (JVal.num 1)⟩⟩).b.storedValue =
      some (JVal.num 5) ∧
    stringifyJS (writeAndSync (some (JVal.num 5))
        ⟨okBackend,
         ⟨"k", some (JVal.num 0), some (JVal.num 1), some (JVal.num 1)⟩,
         ⟨"k", some (JVal.num 0), some (JVal.num 1), some (JVal.num 1)⟩⟩).b.storedValue =
      stringifyJS (some (JVal.num 5)) :=
  c2_cross_instance_sync
    ⟨okBackend,
     ⟨"k", some (JVal.num 0), some (JVal.num 1), some (JVal.num 1)⟩,
     ⟨"k", some (JVal.num 0), some (JVal.num 1), some (JVal.num 1)⟩⟩
    (JVal.num 5) rfl (by simp) rfl rfl (by decide)

/-- C2 counterexample: the claim quantifies over every JSON-serializable `v`,
but for `v = null` the writer's effect removes the slot (nullish branch) and
the delivered signal makes the other instance re-read an absent slot, so its
mirror becomes its default 0 — not serialization-equal to `null`. -/
theorem c2_counterexample :
    (writeAndSync (some JVal.null)
        ⟨okBackend,
         ⟨"k", some (JVal.num 0), some (JVal.num 1), some (JVal.num 1)⟩,
         ⟨"k", some (JVal.num 0), some (JVal.num 1), some (JVal.num 1)⟩⟩).b.storedValue =
      some (JVal.num 0) ∧
    stringifyJS (some (JVal.num 0)) ≠ stringifyJS (some JVal.null) :=
  ⟨rfl, by decide⟩

theorem writeOnce_set (s : SState) (j : JVal)
    (hj : j ≠ JVal.null)
    (hch : stringifyJS (some j) ≠ stringifyJS s.inst.previousValueRef)
    (hg : s.storage.failGet = false) (hs : s.storage.failSet = false) :
    writeOnce (some j) s =
      ⟨{ s.storage with
           slots := fun q => if q = s.inst.key then some (StoredString.ser j)
                             else s.storage.slots q },
        ⟨s.inst.key, s.inst.value, some j, some j⟩,
        s.persistCount + 1, s.notifyCount + 1⟩ := by
  obtain ⟨st, ⟨key, value, sv0, prev⟩, p, n⟩ := s
  simp only at hch hg hs
  have h1 : applyEffect (writeStep (some j) ⟨st, ⟨key, value, sv0, prev⟩, p, n⟩) =
      (⟨{ st with slots := fun q => if q = key then some (StoredString.ser j) else st.slots q },
        ⟨key, value, some j, some j⟩, p + 1, n + 1⟩, true) := by
    simp [applyEffect, writeStep, persistEffect_set hch hj hs]
  have h2 : deliverStep
      (⟨{ st with slots := fun q => if q = key then some (StoredString.ser j) else st.slots q },
        ⟨key, value, some j, some j⟩, p + 1, n + 1⟩ : SState) =
      ⟨{ st with slots := fun q => if q = key then some (StoredString.ser j) else st.slots q },
        ⟨key, value, some j, some j⟩, p + 1, n + 1⟩ := by
    simp [deliverStep, getStoredValue, Backend.getItem, hg, StoredString.truthy, jsonParse]
  have h3 : applyEffect
      (⟨{ st with slots := fun q => if q = key then some (StoredString.ser j) else st.slots q },
        ⟨key, value, some j, some j⟩, p + 1, n + 1⟩ : SState) =
      (⟨{ st with slots := fun q => if q = key then some (StoredString.ser j) else st.slots q },
        ⟨key, value, some j, some j⟩, p + 1, n + 1⟩, false) := by
    simp [applyEffect, persistEffect_skip rfl]
  simp only [writeOnce, h1, h2, h3]
  simp

/-- C3 (amended): writing a stored value `v = some j` (not `null`/`undefined`)
that changes the committed serialization, over a healthy backend, and then
writing again any value with the same serialized form, performs the backend
persistence and emits the change notification exactly once in total: after the
first write's effect and its same-context echo settle, the previously
committed form equals that of `v`, so the second write's effect run is a
no-op. (For nullish `v` the echo re-persists the default and the counters keep
growing — see the counterexample.) -/
theorem c3_idempotent_write_suppression (s : SState) (j : JVal) (w : JSVal)
    (hj : j ≠ JVal.null)
    (hch : stringifyJS (some j) ≠ stringifyJS s.inst.previousValueRef)
    (hg : s.storage.failGet = false) (hs : s.storage.failSet = false)
    (hw : stringifyJS w = stringifyJS (some j)) :
    (writeOnce w (writeOnce (some j) s)).persistCount = s.persistCount + 1 ∧
    (writeOnce w (writeOnce (some j) s)).notifyCount = s.notifyCount + 1 ∧
    (writeOnce w (writeOnce (some j) s)).storage.slots s.inst.key =
      some (StoredString.ser j) := by
  rw [writeOnce_set s j hj hch hg hs]
  have h4 : applyEffect (writeStep w
      (⟨{ s.storage with
            slots := fun q => if q = s.inst.key then some (StoredString.ser j)
                              else s.storage.slots q },
         ⟨s.inst.key, s.inst.value, some j, some j⟩,
         s.persistCount + 1, s.notifyCount + 1⟩ : SState)) =
      (⟨{ s.storage with
            slots := fun q => if q = s.inst.key then some (StoredString.ser j)
                              else s.storage.slots q },
         ⟨s.inst.key, s.inst.value, w, some j⟩,
         s.persistCount + 1, s.notifyCount + 1⟩, false) := by
    simp [applyEffect, writeStep, persistEffect_skip hw]
  simp only [writeOnce, h4]
  simp

theorem c3_idempotent_write_suppression_witness :
    (writeOnce (some (JVal.num 5)) (writeOnce (some (JVal.num 5))
        ⟨okBackend, ⟨"k", some (JVal.num 0), some (JVal.num 1), some (JVal.num 1)⟩,
          0, 0⟩)).persistCount = 0 + 1 ∧
    (writeOnce (some (JVal.num 5)) (writeOnce (some (JVal.num 5))
        ⟨okBackend, ⟨"k", some (JVal.num 0), some (JVal.num 1), some (JVal.num 1)⟩,
          0, 0⟩)).notifyCount = 0 + 1 ∧
    (writeOnce (some (JVal.num 5)) (writeOnce (some (JVal.num 5))
        ⟨okBackend, ⟨"k", some (JVal.num 0), some (JVal.num 1), some (JVal.num 1)⟩,
          0, 0⟩)).storage.slots "k" = some (StoredString.ser (JVal.num 5)) :=
  c3_idempotent_write_suppression
    ⟨okBackend, ⟨"k", some (JVal.num 0), some (JVal.num 1), some (JVal.num 1)⟩, 0, 0⟩
    (JVal.num 5) (some (JVal.num 5)) (by simp) (by decide) rfl rfl rfl

/-- C3 counterexample: the claim quantifies over every value, but for
`v = null` (default 0, committed value 1) the two same-serialization writes
trigger FOUR backend persistence calls and four notifications, and the second
call is not a no-op: the first write's own echo (slot removed, signal
delivered, mirror reset to the default 0, default re-persisted) moves the
committed form to "0", so the second `write(null)` differs again. -/
theorem c3_counterexample :
    (writeOnce (some JVal.null) (writeOnce (some JVal.null)
        ⟨okBackend, ⟨"k", some (JVal.num 0), some (JVal.num 1), some (JVal.num 1)⟩,
          0, 0⟩)).persistCount = 4 ∧
    (writeOnce (some JVal.null) (writeOnce (some JVal.null)
        ⟨okBackend, ⟨"k", some (JVal.num 0), some (JVal.num 1), some (JVal.num 1)⟩,
          0, 0⟩)).notifyCount = 4 :=
  ⟨rfl, rfl⟩

/-- C10 (amended): for a mounted accessor whose default `some j` is neither
`null` nor `undefined`, over a healthy backend, and whose last committed
serialization differs from the default's, `remove()` removes the slot and
dispatches the signal; its delivery resets the mirror to the default, and the
persistence effect then re-creates the slot with the serialized default. (When
the committed serialization already equals the default's — e.g. right after a
mount that persisted the default — the effect run is suppressed and the slot
stays absent; see the counterexample.) -/
theorem c10_remove_recreates_slot (s : SState) (j : JVal)
    (hd : s.inst.value = some j) (hj : j ≠ JVal.null)
    (hg : s.storage.failGet = false) (hs : s.storage.failSet = false)
    (hr : s.storage.failRemove = false)
    (hch : stringifyJS (some j) ≠ stringifyJS s.inst.previousValueRef) :
    ∃ s' : SState, removeAndSettle s = Except.ok s' ∧
      s'.inst.storedValue = some j ∧
      s'.storage.slots s.inst.key = some (StoredString.ser j) := by
  obtain ⟨st, ⟨key, value, sv0, prev⟩, p, n⟩ := s
  simp only at hd hg hs hr hch
  subst hd
  have hrem : removeStoredValue st key =
      Except.ok { st with slots := fun q => if q = key then none else st.slots q } := by
    simp [removeStoredValue, Backend.removeItem, hr]
  have h1 : deliverStep
      (⟨{ st with slots := fun q => if q = key then none else st.slots q },
        ⟨key, some j, sv0, prev⟩, p, n + 1⟩ : SState) =
      ⟨{ st with slots := fun q => if q = key then none else st.slots q },
        ⟨key, some j, some j, prev⟩, p, n + 1⟩ := by
    simp [deliverStep, getStoredValue, Backend.getItem, hg]
  have hset := @persistEffect_set
    { st with slots := fun q => if q = key then none else st.slots q }
    key j prev hch hj (by simpa using hs)
  have h2 : applyEffect
      (⟨{ st with slots := fun q => if q = key then none else st.slots q },
        ⟨key, some j, some j, prev⟩, p, n + 1⟩ : SState) =
      (⟨{ st with slots := fun q => if q = key then some (StoredString.ser j)
            else if q = key then none else st.slots q },
        ⟨key, some j, some j, some j⟩, p + 1, n + 2⟩, true) := by
    simp only [applyEffect, hset]
    simp
  have h3 : deliverStep
      (⟨{ st with slots := fun q => if q = key then some (StoredString.ser j)
            else if q = key then none else st.slots q },
        ⟨key, some j, some j, some j⟩, p + 1, n + 2⟩ : SState) =
      ⟨{ st with slots := fun q => if q = key then some (StoredString.ser j)
            else if q = key then none else st.slots q },
        ⟨key, some j, some j, some j⟩, p + 1, n + 2⟩ := by
    simp [deliverStep, getStoredValue, Backend.getItem, hg, StoredString.truthy, jsonParse]
  have h4 : applyEffect
      (⟨{ st with slots := fun q => if q = key then some (StoredString.ser j)
            else if q = key then none else st.slots q },
        ⟨key, some j, some j, some j⟩, p + 1, n + 2⟩ : SState) =
      (⟨{ st with slots := fun q => if q = key then some (StoredString.ser j)
            else if q = key then none else st.slots q },
        ⟨key, some j, some j, some j⟩, p + 1, n + 2⟩, false) := by
    simp [applyEffect, persistEffect_skip rfl]
  refine ⟨⟨{ st with slots := fun q => if q = key then some (StoredString.ser j)
        else if q = key then none else st.slots q },
      ⟨key, some j, some j, some j⟩, p + 1, n + 2⟩, ?_, rfl, by simp⟩
  simp only [removeAndSettle, hrem, h1, h2, h3, h4]
  simp

theorem c10_remove_recreates_slot_witness :
    ∃ s' : SState,
      removeAndSettle
        ⟨okBackend, ⟨"k", some (JVal.num 0), some (JVal.num 1), some (JVal.num 1)⟩,
          0, 0⟩ = Except.ok s' ∧
      s'.inst.storedValue = some (JVal.num 0) ∧
      s'.storage.slots "k" = some (StoredString.ser (JVal.num 0)) :=
  c10_remove_recreates_slot
    ⟨okBackend, ⟨"k", some (JVal.num 0), some (JVal.num 1), some (JVal.num 1)⟩, 0, 0⟩
    (JVal.num 0) rfl (by simp) rfl rfl rfl (by decide)

/-- A mounted accessor right after first mount with default 0 and no prior
slot value: the mount effect persisted the default, so the slot holds the
serialized 0 and the committed serialization equals the default's. -/
def c10State : SState :=
  ⟨⟨fun q => if q = "k" then some (StoredString.ser (JVal.num 0)) else none,
    false, false, false⟩,
   ⟨"k", some (JVal.num 0), some (JVal.num 0), some (JVal.num 0)⟩, 0, 0⟩

/-- C10 counterexample: against the claim's universal "calling remove() does
not leave the backend slot absent", for a mounted accessor whose committed
value already serializes like its (non-null) default 0, `remove()` leaves the
slot absent for good: the delivered signal re-reads the default into the
mirror, but the persistence effect is then suppressed by the
previously-committed comparison and never re-creates the slot. -/
theorem c10_counterexample :
    (removeAndSettle c10State).toOption.map (fun t => t.storage.slots "k") = some none ∧
    (removeAndSettle c10State).toOption.map (fun t => t.inst.storedValue) =
      some (some (JVal.num 0)) :=
  ⟨rfl, rfl⟩

theorem lookupEntry_insert_self (es : Entries) (n : String) (t : FsTree) :
    lookupEntry (insertEntry es n t) n = some t := by
  cases es with
  | nil => simp [insertEntry, lookupEntry]
  | cons m u rest =>
      by_cases h : m = n
      · simp [insertEntry, lookupEntry, h]
      · simp [insertEntry, lookupEntry, h, lookupEntry_insert_self rest n t]
termination_by sizeOf es

theorem lookupEntry_insert_other (es : Entries) (n : String) (t : FsTree) (q : String)
    (h : n ≠ q) : lookupEntry (insertEntry es n t) q = lookupEntry es q := by
  cases es with
  | nil => simp [insertEntry, lookupEntry, h]
  | cons m u rest =>
      by_cases hm : m = n
      · subst hm
        simp [insertEntry, lookupEntry, h]
      · simp only [insertEntry, if_neg hm]
        by_cases hq : m = q
        · subst hq
          simp [lookupEntry]
        · simp [lookupEntry, hq, lookupEntry_insert_other rest n t q h]
termination_by sizeOf es

theorem copyEntries_frame (src tgt out : Entries) (q : String)
    (hq : (entryNames src).contains q = false)
    (hcopy : copyEntries src tgt = Except.ok out) :
    lookupEntry out q = lookupEntry tgt q := by
  cases src with
  | nil =>
      simp only [copyEntries, Except.ok.injEq] at hcopy
      rw [hcopy]
  | cons name t rest =>
      have hq' : ¬ q = name ∧ ¬ (entryNames rest).contains q = true := by
        simpa [entryNames, List.contains_cons] using hq
      have hq1 : name ≠ q := fun hh => hq'.1 hh.symm
      have hq2 : (entryNames rest).contains q = false := by
        simpa using hq'.2
      cases t with
      | file c =>
          simp only [copyEntries] at hcopy
          rcases hl : lookupEntry tgt name with _ | u <;> rw [hl] at hcopy
          · simp only [] at hcopy
            rw [copyEntries_frame rest _ out q hq2 hcopy,
              lookupEntry_insert_other tgt name _ q hq1]
          · cases u with
            | file c2 =>
                simp only [] at hcopy
                rw [copyEntries_frame rest _ out q hq2 hcopy,
                  lookupEntry_insert_other tgt name _ q hq1]
            | dir es2 => simp at hcopy
      | dir sub =>
          simp only [copyEntries] at hcopy
          rcases hcd : copyDirectory sub (lookupEntry tgt name) with e | u <;>
            rw [hcd] at hcopy
          · simp at hcopy
          · simp only [] at hcopy
            rw [copyEntries_frame rest _ out q hq2 hcopy,
              lookupEntry_insert_other tgt name _ q hq1]
termination_by sizeOf src

theorem wfb_cons {m : String} {t : FsTree} {rest : Entries}
    (h : FsTree.wfb (FsTree.dir (Entries.cons m t rest)) = true) :
    (entryNames rest).contains m = false ∧ FsTree.wfb t = true ∧
    FsTree.wfb (FsTree.dir rest) = true := by
  simp only [FsTree.wfb, Entries.wfb, entryNames, distinctNames, Bool.and_eq_true,
    Bool.not_eq_true'] at h
  obtain ⟨⟨h1, h2⟩, h3, h4⟩ := h
  refine ⟨h1, h3, ?_⟩
  simp only [FsTree.wfb, Bool.and_eq_true]
  exact ⟨h2, h4⟩


theorem copyEntries_sound_aux (N : Nat) :
    ∀ (src tgt out : Entries), sizeOf src ≤ N →
    FsTree.wfb (FsTree.dir src) = true →
    copyEntries src tgt = Except.ok out →
    ∀ (p : List String) (c : List Nat),
      pathLookup (FsTree.dir src) p = some (FsTree.file c) →
      pathLookup (FsTree.dir out) p = some (FsTree.file c) := by
  induction N with
  | zero =>
      intro src tgt out hN
      cases src <;> simp at hN
  | succ N ih =>
      intro src tgt out hN hwf hcopy p c hsrc
      cases p with
      | nil => simp [pathLookup] at hsrc
      | cons n p' =>
        cases src with
        | nil => simp [pathLookup, lookupEntry] at hsrc
        | cons m t rest =>
          obtain ⟨hm, hwt, hwrest⟩ := wfb_cons hwf
          have hrest : sizeOf rest ≤ N := by simp at hN; omega
          by_cases hmn : m = n
          · subst hmn
            have hsrc2 : pathLookup t p' = some (FsTree.file c) := by
              simpa [pathLookup, lookupEntry] using hsrc
            cases t with
            | file c0 =>
              cases p' with
              | cons x xs => simp [pathLookup] at hsrc2
              | nil =>
                simp only [pathLookup, Option.some.injEq, FsTree.file.injEq] at hsrc2
                subst hsrc2
                simp only [copyEntries] at hcopy
                rcases hl : lookupEntry tgt m with _ | u <;> rw [hl] at hcopy
                · have hfr := copyEntries_frame rest _ out m hm hcopy
                  simp only [pathLookup, hfr, lookupEntry_insert_self]
                · cases u with
                  | file c2 =>
                    have hfr := copyEntries_frame rest _ out m hm hcopy
                    simp only [pathLookup, hfr, lookupEntry_insert_self]
                  | dir es2 => simp at hcopy
            | dir sub =>
              have hsub : sizeOf sub ≤ N := by simp at hN; omega
              simp only [copyEntries] at hcopy
              rcases hcd : copyDirectory sub (lookupEntry tgt m) with e | u <;>
                rw [hcd] at hcopy
              · simp at hcopy
              · have hu : pathLookup u p' = some (FsTree.file c) := by
                  rcases hl : lookupEntry tgt m with _ | w
                  · rw [hl] at hcd
                    simp only [copyDirectory] at hcd
                    rcases hce : copyEntries sub Entries.nil with e2 | out2 <;>
                      rw [hce] at hcd <;> simp [Except.map] at hcd
                    rw [← hcd]
                    exact ih sub Entries.nil out2 hsub hwt hce p' c hsrc2
                  · cases w with
                    | file c2 =>
                      rw [hl] at hcd
                      cases sub with
                      | nil =>
                        cases p' with
                        | nil => simp [pathLookup] at hsrc2
                        | cons y ys => simp [pathLookup, lookupEntry] at hsrc2
                      | cons a b rest2 => simp [copyDirectory] at hcd
                    | dir es2 =>
                      rw [hl] at hcd
                      simp only [copyDirectory] at hcd
                      rcases hce : copyEntries sub es2 with e2 | out2 <;>
                        rw [hce] at hcd <;> simp [Except.map] at hcd
                      rw [← hcd]
                      exact ih sub es2 out2 hsub hwt hce p' c hsrc2
                have hfr := copyEntries_frame rest _ out m hm hcopy
                simp only [pathLookup, hfr, lookupEntry_insert_self]
                exact hu
          · have hsrc' : pathLookup (FsTree.dir rest) (n :: p') = some (FsTree.file c) := by
              simp only [pathLookup, lookupEntry, if_neg hmn] at hsrc
              simp only [pathLookup]
              exact hsrc
            cases t with
            | file c0 =>
              simp only [copyEntries] at hcopy
              rcases hl : lookupEntry tgt m with _ | u <;> rw [hl] at hcopy
              · exact ih rest _ out hrest hwrest hcopy (n :: p') c hsrc'
              · cases u with
                | file c2 => exact ih rest _ out hrest hwrest hcopy (n :: p') c hsrc'
                | dir es2 => simp at hcopy
            | dir sub =>
              simp only [copyEntries] at hcopy
              rcases hcd : copyDirectory sub (lookupEntry tgt m) with e | u <;>
                rw [hcd] at hcopy
              · simp at hcopy
              · exact ih rest _ out hrest hwrest hcopy (n :: p') c hsrc'

theorem copyEntries_sound (src tgt out : Entries)
    (hwf : FsTree.wfb (FsTree.dir src) = true)
    (hcopy : copyEntries src tgt = Except.ok out)
    (p : List String) (c : List Nat)
    (hsrc : pathLookup (FsTree.dir src) p = some (FsTree.file c)) :
    pathLookup (FsTree.dir out) p = some (FsTree.file c) :=
  copyEntries_sound_aux (sizeOf src) src tgt out (Nat.le_refl _) hwf hcopy p c hsrc

/-- C9: installer correctness. For every non-empty well-formed source tree
(real directories have pairwise-distinct entry names), after one successful
run of `copyDirectory` every file present in the source exists at the
corresponding relative path under the destination with identical byte
content; the successful `pathLookup` through the destination also witnesses
that all intermediate directories exist (they were created as needed). -/
theorem c9_installer_copies_all_files (src : Entries) (tgt : Option FsTree)
    (d : FsTree) (p : List String) (c : List Nat)
    (hne : src ≠ Entries.nil)
    (hwf : FsTree.wfb (FsTree.dir src) = true)
    (hrun : copyDirectory src tgt = Except.ok d)
    (hsrc : pathLookup (FsTree.dir src) p = some (FsTree.file c)) :
    pathLookup d p = some (FsTree.file c) := by
  cases tgt with
  | none =>
      simp only [copyDirectory, Except.map] at hrun
      rcases hc : copyEntries src Entries.nil with e | out <;>
        rw [hc] at hrun <;> simp at hrun
      rw [← hrun]
      exact copyEntries_sound src Entries.nil out hwf hc p c hsrc
  | some t =>
      cases t with
      | file c2 =>
          cases src with
          | nil => exact absurd rfl hne
          | cons a b rest => simp [copyDirectory] at hrun
      | dir es =>
          simp only [copyDirectory, Except.map] at hrun
          rcases hc : copyEntries src es with e | out <;>
            rw [hc] at hrun <;> simp at hrun
          rw [← hrun]
          exact copyEntries_sound src es out hwf hc p c hsrc

/-- A small source tree used to witness the installer theorem: a file "a" and
a subdirectory "d" holding a file "b". -/
def demoSub : Entries := Entries.cons "b" (FsTree.file [3]) Entries.nil

/-- The full demo source listing. -/
def demoSrc : Entries :=
  Entries.cons "a" (FsTree.file [1, 2]) (Entries.cons "d" (FsTree.dir demoSub) Entries.nil)

theorem c9_installer_copies_all_files_witness :
    pathLookup (FsTree.dir demoSrc) ["d", "b"] = some (FsTree.file [3]) :=
  c9_installer_copies_all_files demoSrc none (FsTree.dir demoSrc) ["d", "b"] [3]
    (by simp [demoSrc])
    (by simp [demoSrc, demoSub, FsTree.wfb, Entries.wfb, distinctNames, entryNames])
    (by simp [demoSrc, demoSub, copyDirectory, copyEntries, lookupEntry, insertEntry,
          Except.map])
    rfl
